import Mathlib

/-
Shallow embedding of the repository's single source file
src/src/components/EditDialog.vue, which contains two Vue components:

* the EditDialog modal form (script setup block, first document), and
* the RecordTable host screen (second document in the same file):
  a paginated table over an in-memory collection with add / edit / delete
  orchestrated through the dialog.

JavaScript numbers that hold integers are modelled as Int (ids, sort
orders, page numbers, page sizes); collections as List; objects with
possibly-undefined fields as Option-typed fields.  DOM / element-plus
rendering is outside the model; what is embedded is the state held in
refs / reactive objects and the event-handler functions that update it.
-/

namespace EditDialog

/-- Status enum of a record: the source uses the string literals
for enabled and disabled. -/
inductive Status where
  | enabled
  | disabled
  deriving DecidableEq, Repr

/-- Embeds the exported TS interface EditFormData:
id is optional (absent in add mode), the other fields are present. -/
structure EditFormData where
  id : Option Int
  categoryNameZh : String
  categoryNameEn : String
  sortOrder : Int
  status : Status
  deriving DecidableEq, Repr

/-- Dialog mode: the source type DialogMode = add | edit. -/
inductive DialogMode where
  | add
  | edit
  deriving DecidableEq, Repr

/-- The formData prop as initForm defensively reads it: every field may be
undefined (the source guards each one with the JS or-else operator),
so each field is Option-typed here. -/
structure FormDataOpt where
  id : Option Int
  categoryNameZh : Option String
  categoryNameEn : Option String
  sortOrder : Option Int
  status : Option Status
  deriving DecidableEq, Repr

/-- JS or-else on a string-or-undefined value: the empty string is falsy,
any other string is truthy. -/
def jsOrString (x : Option String) (d : String) : String :=
  match x with
  | some s => if s = "" then d else s
  | none => d

/-- JS or-else on a number-or-undefined value: 0 is falsy, any other
integer is truthy. -/
def jsOrInt (x : Option Int) (d : Int) : Int :=
  match x with
  | some n => if n = 0 then d else n
  | none => d

/-- JS or-else on a status-or-undefined value: both enum values are
non-empty strings in the source, hence truthy. -/
def jsOrStatus (x : Option Status) (d : Status) : Status :=
  x.getD d

/-- The default draft assigned in the add branch of initForm and as the
initial value of the form ref: empty names, sortOrder 1, status enabled,
no id. -/
def defaultForm : EditFormData :=
  { id := none
    categoryNameZh := ""
    categoryNameEn := ""
    sortOrder := 1
    status := .enabled }

/-- Embeds initForm: in edit mode with formData present, fill the draft
from formData (each field guarded by the JS or-else with its default);
otherwise reset the draft to the defaults with no id. -/
def initForm (mode : DialogMode) (formData : Option FormDataOpt) :
    EditFormData :=
  match mode, formData with
  | .edit, some fd =>
      { id := fd.id
        categoryNameZh := jsOrString fd.categoryNameZh ""
        categoryNameEn := jsOrString fd.categoryNameEn ""
        sortOrder := jsOrInt fd.sortOrder 1
        status := jsOrStatus fd.status .enabled }
  | _, _ => defaultForm

/-- Maximum name length from the rules (maxLength = 50). -/
def maxLength : Nat := 50

/-- Embeds the async-validator rules object evaluated by
formRef.validate():
categoryNameZh required and at most maxLength characters,
categoryNameEn required and at most maxLength characters,
sortOrder required with type number and min 1,
status required (always satisfied: the draft's status field always
holds one of the two enum values). -/
def validateForm (f : EditFormData) : Bool :=
  !(f.categoryNameZh = "") && f.categoryNameZh.length ≤ maxLength &&
  !(f.categoryNameEn = "") && f.categoryNameEn.length ≤ maxLength &&
  1 ≤ f.sortOrder &&
  (f.status = .enabled || f.status = .disabled)

/-- View of a full record as the defensively-read formData prop: every
field present.  This is how the host passes a spread copy of a row. -/
def toFormDataOpt (f : EditFormData) : FormDataOpt :=
  { id := f.id
    categoryNameZh := some f.categoryNameZh
    categoryNameEn := some f.categoryNameEn
    sortOrder := some f.sortOrder
    status := some f.status }

/-- The dialog-local mutable state: the visible prop as last seen and the
draft form ref. -/
structure DialogState where
  visible : Bool
  form : EditFormData
  deriving DecidableEq, Repr

/-- Embeds the watcher on props.visible: the watch callback fires on a
change of the prop and runs initForm when the new value is true, so a
false-to-true transition re-initializes the draft before the dialog is
painted.  The prop value itself is recorded in the state. -/
def dialogSetVisible (mode : DialogMode) (formData : Option FormDataOpt)
    (s : DialogState) (newVal : Bool) : DialogState :=
  if newVal ∧ ¬ s.visible then
    { visible := true, form := initForm mode formData }
  else
    { s with visible := newVal }

/-- Embeds handleConfirm: validate the draft; on success emit a spread
copy of the draft (all fields are primitive, so the spread copy is a deep
copy) and close the dialog via handleClose; on validation failure emit
nothing and leave the dialog open.  The first component is the payload of
the confirm event, if any. -/
def handleConfirm (s : DialogState) : Option EditFormData × DialogState :=
  if validateForm s.form then
    (some s.form, { s with visible := false })
  else
    (none, s)

/-
Object-identity model.  To state the aliasing guarantees (the dialog never
mutates the formData object it was given; the confirm payload is a fresh
object), JS objects are modelled as cells of a store addressed by
allocation order.  All record fields are primitive (strings, numbers), so
an object is just its field tuple and a spread copy allocates a fresh cell
holding equal fields.
-/

/-- A store of record objects, addressed by list index. -/
abbrev Heap := List EditFormData

/-- Dereference an address. -/
def readH (h : Heap) (a : Nat) : Option EditFormData :=
  h[a]?

/-- Overwrite the object at an address in place. -/
def writeH (h : Heap) (a : Nat) (v : EditFormData) : Heap :=
  h.set a v

/-- Heap-level initForm: form.value is assigned a freshly built record
value stored into the dialog's own cell formAddr; the fields are read
(by value) from the formData object at fdAddr, which is never written. -/
def initFormH (h : Heap) (formAddr : Nat) (mode : DialogMode)
    (fdAddr : Option Nat) : Heap :=
  writeH h formAddr
    (initForm mode ((fdAddr.bind (readH h)).map toFormDataOpt))

/-- Heap-level handleConfirm: read the draft at formAddr; when it
validates, the spread copy allocates a fresh object with the same field
values at the next address and that address is what the confirm event
carries. -/
def handleConfirmH (h : Heap) (formAddr : Nat) : Heap × Option Nat :=
  match readH h formAddr with
  | some f =>
      if validateForm f then (h ++ [f], some h.length) else (h, none)
  | none => (h, none)

/-- Closed form of handleConfirmH on a valid draft. -/
lemma handleConfirmH_valid (h : Heap) (formAddr : Nat) (f : EditFormData)
    (hr : readH h formAddr = some f) (hv : validateForm f = true) :
    handleConfirmH h formAddr = (h ++ [f], some h.length) := by
  unfold handleConfirmH
  simp [hr, hv]

/-- Closed form of handleConfirmH on an invalid draft. -/
lemma handleConfirmH_invalid (h : Heap) (formAddr : Nat) (f : EditFormData)
    (hr : readH h formAddr = some f) (hv : validateForm f = false) :
    handleConfirmH h formAddr = (h, none) := by
  unfold handleConfirmH
  simp [hr, hv]

/-- Closed form of handleConfirmH on a dangling form address. -/
lemma handleConfirmH_none (h : Heap) (formAddr : Nat)
    (hr : readH h formAddr = none) :
    handleConfirmH h formAddr = (h, none) := by
  unfold handleConfirmH
  simp [hr]

/-- A present string falls through the or-else with the empty default. -/
lemma jsOrString_some_empty (z : String) : jsOrString (some z) "" = z := by
  by_cases h : z = "" <;> simp [jsOrString, h]

/-- A present non-zero integer falls through the or-else. -/
lemma jsOrInt_some_ne {n : Int} (h : n ≠ 0) (d : Int) :
    jsOrInt (some n) d = n := by
  simp [jsOrInt, h]

end EditDialog

namespace RecordTable

open EditDialog

/-- Embeds the TS interface TableItem of the host component: a committed
record, whose id is always present. -/
structure TableItem where
  id : Int
  categoryNameZh : String
  categoryNameEn : String
  sortOrder : Int
  status : Status
  deriving DecidableEq, Repr

/-- Spread of a dialog payload with an explicit id, as in the two commit
branches: braces-spread of data overridden with an id field. -/
def withId (d : EditFormData) (i : Int) : TableItem :=
  { id := i
    categoryNameZh := d.categoryNameZh
    categoryNameEn := d.categoryNameEn
    sortOrder := d.sortOrder
    status := d.status }

/-- The mutable state of the host component: the tableData ref and the
pagination reactive object (currentPage, pageSize, jumpPage). -/
structure TableState where
  tableData : List TableItem
  currentPage : Int
  pageSize : Int
  jumpPage : Int
  deriving DecidableEq, Repr

/-- The computed total: length of tableData. -/
def total (s : TableState) : Nat :=
  s.tableData.length

/-- Math.ceil of len divided by pS, for a positive integer pS: in exact
arithmetic the ceiling of len / pS is (len + pS - 1) / pS with integer
division.  This is the totalPages expression of the source. -/
def ceilPages (len : Nat) (pS : Int) : Int :=
  ((len : Int) + pS - 1) / pS

/-- The computed paginatedData: tableData.slice(start, start + pageSize)
with start = (currentPage - 1) * pageSize.  JS slice with non-negative
in-range bounds is drop-then-take; all reachable states have
currentPage at least 1 and a positive pageSize, so the start index is
non-negative. -/
def paginatedData (s : TableState) : List TableItem :=
  (s.tableData.drop ((s.currentPage - 1) * s.pageSize).toNat).take
    s.pageSize.toNat

/-- The initial tableData ref: the eight mock records of the source. -/
def initialTableData : List TableItem :=
  [ { id := 2356, categoryNameZh := "飞行器",
      categoryNameEn := "combat flight control", sortOrder := 1,
      status := .enabled },
    { id := 2645, categoryNameZh := "飞行器",
      categoryNameEn := "combat flight control", sortOrder := 2,
      status := .enabled },
    { id := 2632, categoryNameZh := "飞行器",
      categoryNameEn := "combat flight control", sortOrder := 3,
      status := .disabled },
    { id := 2630, categoryNameZh := "飞行器",
      categoryNameEn := "combat flight control", sortOrder := 6,
      status := .enabled },
    { id := 2662, categoryNameZh := "飞行器",
      categoryNameEn := "combat flight control", sortOrder := 5,
      status := .enabled },
    { id := 2699, categoryNameZh := "飞行器",
      categoryNameEn := "combat flight control", sortOrder := 4,
      status := .enabled },
    { id := 2369, categoryNameZh := "飞行器",
      categoryNameEn := "combat flight control", sortOrder := 9,
      status := .enabled },
    { id := 2586, categoryNameZh := "飞行器",
      categoryNameEn := "combat flight control", sortOrder := 11,
      status := .enabled } ]

/-- The initial pagination reactive object: currentPage 1, pageSize 2,
jumpPage 1, together with the initial tableData. -/
def initialTableState : TableState :=
  { tableData := initialTableData
    currentPage := 1
    pageSize := 2
    jumpPage := 1 }

/-- Embeds the confirmed branch of handleDelete (the user accepted the
confirmation prompt): find the first index whose id equals the row's id;
if found, splice it out, report success, and if the current page's slice
of the remaining data is empty while currentPage is above 1, decrement
currentPage and mirror it into jumpPage; if not found, do nothing.  The
Bool records whether the success message was shown. -/
def handleDelete (s : TableState) (rowId : Int) : TableState × Bool :=
  match s.tableData.findIdx? (fun item => item.id = rowId) with
  | some i =>
      let s1 : TableState := { s with tableData := s.tableData.eraseIdx i }
      if (paginatedData s1).length = 0 ∧ s1.currentPage > 1 then
        ({ s1 with currentPage := s1.currentPage - 1,
                   jumpPage := s1.currentPage - 1 }, true)
      else
        (s1, true)
  | none => (s, false)

/-- Result message of a dialog commit, as shown by the source. -/
inductive CommitMsg where
  | editSuccess
  | editError
  | addSuccess
  deriving DecidableEq, Repr

/-- Embeds handleDialogConfirm with its mode-keyed handler map.
Edit branch: find the first record whose id strictly equals data.id (an
absent id matches nothing); if found, overwrite that slot with a spread of
data whose id field is data.id, else show the not-found error.
Add branch: newId is one more than the maximum of all existing ids and 0;
push the new record, then set currentPage and jumpPage to the totalPages
value recomputed from the post-push total. -/
def handleDialogConfirm (mode : DialogMode) (s : TableState)
    (data : EditFormData) : TableState × CommitMsg :=
  match mode with
  | .edit =>
      match s.tableData.findIdx? (fun item => data.id = some item.id) with
      | some i =>
          ({ s with tableData :=
              s.tableData.set i (withId data (data.id.getD 0)) },
           .editSuccess)
      | none => (s, .editError)
  | .add =>
      let newId := (s.tableData.map (fun item => item.id)).foldl max 0 + 1
      let newData := s.tableData ++ [withId data newId]
      let totalPages := ceilPages newData.length s.pageSize
      ({ s with tableData := newData,
                currentPage := totalPages,
                jumpPage := totalPages },
       .addSuccess)

/-- Embeds handleSizeChange: set pageSize to the selected value and reset
currentPage to 1. -/
def handleSizeChange (s : TableState) (val : Int) : TableState :=
  { s with pageSize := val, currentPage := 1 }

/-- Embeds handleCurrentChange: set currentPage and jumpPage to the page
number emitted by the pager control. -/
def handleCurrentChange (s : TableState) (val : Int) : TableState :=
  { s with currentPage := val, jumpPage := val }

/-- Embeds handleJump: accept the jump only when jumpPage lies between 1
and Math.ceil(total / pageSize); otherwise leave the state unchanged. -/
def handleJump (s : TableState) : TableState :=
  if 1 ≤ s.jumpPage ∧ s.jumpPage ≤ ceilPages (total s) s.pageSize then
    { s with currentPage := s.jumpPage }
  else
    s

/-- The operations of the host component that touch the collection or the
pagination state. -/
inductive TableOp where
  | addCommit (d : EditFormData)
  | editCommit (d : EditFormData)
  | deleteRow (rowId : Int)
  | sizeChange (val : Int)
  | currentChange (val : Int)
  | jump
  deriving DecidableEq, Repr

/-- One step of the host component under an operation. -/
def stepTable (s : TableState) (op : TableOp) : TableState :=
  match op with
  | .addCommit d => (handleDialogConfirm .add s d).1
  | .editCommit d => (handleDialogConfirm .edit s d).1
  | .deleteRow rowId => (handleDelete s rowId).1
  | .sizeChange val => handleSizeChange s val
  | .currentChange val => handleCurrentChange s val
  | .jump => handleJump s

/-- Domain of an operation's argument: a size change carries one of the
page-size options of the source (the select feeds Number of one of the
option strings); a page change from the pager control carries a page
number between 1 and the page count (at least 1 when the table is empty,
since el-pagination still displays page 1 then). -/
def opValid (s : TableState) : TableOp → Prop
  | .sizeChange val => val = 10 ∨ val = 20 ∨ val = 50 ∨ val = 100
  | .currentChange val =>
      1 ≤ val ∧ (0 < total s → val ≤ ceilPages (total s) s.pageSize)
  | _ => True

/-- The pagination invariant of the spec: currentPage is at least 1,
pageSize is positive, and when the collection is non-empty currentPage
does not exceed the page count. -/
def pagInv (s : TableState) : Prop :=
  1 ≤ s.currentPage ∧ 0 < s.pageSize ∧
    (0 < total s → s.currentPage ≤ ceilPages (total s) s.pageSize)

end RecordTable

namespace RecordTable

open EditDialog

/-- A left max-fold dominates its initial accumulator. -/
lemma init_le_foldl_max (l : List Int) (a : Int) : a ≤ l.foldl max a := by
  induction l generalizing a with
  | nil => exact le_refl a
  | cons x xs ih => exact le_trans (le_max_left a x) (ih (max a x))

/-- A left max-fold dominates every member of the list. -/
lemma mem_le_foldl_max {x : Int} {l : List Int} (hx : x ∈ l) (a : Int) :
    x ≤ l.foldl max a := by
  induction l generalizing a with
  | nil => cases hx
  | cons y ys ih =>
      simp only [List.foldl_cons]
      rcases List.mem_cons.mp hx with h | h
      · subst h
        exact le_trans (le_max_right a x) (init_le_foldl_max ys (max a x))
      · exact ih h (max a y)

/-- The page count of a non-empty collection is at least 1. -/
lemma ceilPages_pos {len : Nat} {pS : Int} (hp : 0 < pS) (hl : 0 < len) :
    1 ≤ ceilPages len pS := by
  unfold ceilPages
  rw [Int.le_ediv_iff_mul_le hp]
  omega

/-- The page count of a collection with one more element, written through
the floor division of the smaller length. -/
lemma ceilPages_succ (len : Nat) {pS : Int} (hp : 0 < pS) :
    ceilPages (len + 1) pS = (len : Int) / pS + 1 := by
  unfold ceilPages
  have h : ((len + 1 : Nat) : Int) + pS - 1 = (len : Int) + 1 * pS := by
    push_cast
    ring
  rw [h, Int.add_mul_ediv_right _ _ (by omega : pS ≠ 0)]

/-- Floor division is bounded by the page count. -/
lemma ediv_le_ceilPages (len : Nat) {pS : Int} (hp : 0 < pS) :
    (len : Int) / pS ≤ ceilPages len pS := by
  unfold ceilPages
  exact Int.ediv_le_ediv hp (by omega)

/-- A page whose start offset lies strictly inside the collection is at
most the page count. -/
lemma le_ceilPages_of_mul_lt {a : Int} {len : Nat} {pS : Int}
    (hp : 0 < pS) (h : a * pS < len) : a + 1 ≤ ceilPages len pS := by
  unfold ceilPages
  have h2 : (len : Int) + pS - 1 = ((len : Int) - 1) + 1 * pS := by ring
  rw [h2, Int.add_mul_ediv_right _ _ (by omega : pS ≠ 0)]
  have h3 : a ≤ ((len : Int) - 1) / pS := by
    rw [Int.le_ediv_iff_mul_le hp]
    omega
  omega

/-- Closed form of the found branch of handleDelete when the remaining
current page is empty and the current page is above 1. -/
lemma handleDelete_found_empty (s : TableState) (rowId : Int) (i : Nat)
    (hf : s.tableData.findIdx? (fun it => it.id = rowId) = some i)
    (hempty :
      (paginatedData
        { s with tableData := s.tableData.eraseIdx i }).length = 0)
    (hcp : 1 < s.currentPage) :
    handleDelete s rowId =
      ({ s with tableData := s.tableData.eraseIdx i,
                currentPage := s.currentPage - 1,
                jumpPage := s.currentPage - 1 }, true) := by
  unfold handleDelete
  rw [hf]
  simp only []
  rw [if_pos ⟨hempty, hcp⟩]

/-- Closed form of the found branch of handleDelete when the page-clamp
condition does not hold. -/
lemma handleDelete_found_keep (s : TableState) (rowId : Int) (i : Nat)
    (hf : s.tableData.findIdx? (fun it => it.id = rowId) = some i)
    (hnc : ¬ ((paginatedData
        { s with tableData := s.tableData.eraseIdx i }).length = 0 ∧
        1 < s.currentPage)) :
    handleDelete s rowId =
      ({ s with tableData := s.tableData.eraseIdx i }, true) := by
  unfold handleDelete
  rw [hf]
  simp only []
  rw [if_neg hnc]

/-- Closed form of the add branch of handleDialogConfirm. -/
lemma addCommit_eq (s : TableState) (d : EditFormData) :
    handleDialogConfirm .add s d =
      ({ s with
          tableData := s.tableData ++
            [withId d ((s.tableData.map (fun it => it.id)).foldl max 0 + 1)]
          currentPage := ceilPages (s.tableData.length + 1) s.pageSize
          jumpPage := ceilPages (s.tableData.length + 1) s.pageSize },
       .addSuccess) := by
  unfold handleDialogConfirm
  simp

end RecordTable

section ClaimTheorems

open EditDialog RecordTable

/-- C2: for every collection and committed add draft, the add-commit
handler appends a new record whose id is one more than the maximum of the
existing ids and 0 (hence strictly greater than every existing id and at
least 1), and then sets currentPage and jumpPage to the page count
recomputed from the total after the append; in particular a collection
with ids 2 and 5 assigns id 6 and an empty collection assigns id 1. -/
theorem C2_add_commit_fresh_id_last_page :
    (∀ (s : TableState) (d : EditFormData),
      (handleDialogConfirm .add s d).1.tableData =
        s.tableData ++
          [withId d ((s.tableData.map (fun it => it.id)).foldl max 0 + 1)] ∧
      (∀ it ∈ s.tableData,
        it.id < (s.tableData.map (fun it => it.id)).foldl max 0 + 1) ∧
      1 ≤ (s.tableData.map (fun it => it.id)).foldl max 0 + 1 ∧
      (handleDialogConfirm .add s d).1.currentPage =
        ceilPages (s.tableData.length + 1) s.pageSize ∧
      (handleDialogConfirm .add s d).1.jumpPage =
        (handleDialogConfirm .add s d).1.currentPage ∧
      (handleDialogConfirm .add s d).2 = .addSuccess) ∧
    (∀ (d e f : EditFormData),
      (handleDialogConfirm .add
        { tableData := [withId e 2, withId f 5], currentPage := 1,
          pageSize := 10, jumpPage := 1 } d).1.tableData.map
            (fun it => it.id) = [2, 5, 6]) ∧
    (∀ d : EditFormData,
      (handleDialogConfirm .add
        { tableData := [], currentPage := 1, pageSize := 10,
          jumpPage := 1 } d).1.tableData.map (fun it => it.id) = [1]) := by
  refine ⟨fun s d => ?_, fun d e f => ?_, fun d => ?_⟩
  · rw [addCommit_eq]
    refine ⟨rfl, ?_, ?_, rfl, rfl, rfl⟩
    · intro it hit
      have hle : it.id ≤ (s.tableData.map (fun it => it.id)).foldl max 0 :=
        mem_le_foldl_max (List.mem_map_of_mem (fun it => it.id) hit) 0
      omega
    · have h0 := init_le_foldl_max (s.tableData.map fun it => it.id) 0
      omega
  · rw [addCommit_eq]
    simp [withId]
  · rw [addCommit_eq]
    simp [withId]

/-- Witness for C2 at a concrete state: in the two-record collection with
ids 2 and 5, the record with id 2 is in the collection and its id is
below the freshly assigned id. -/
theorem C2_witness :
    (⟨2, "a", "b", 1, .enabled⟩ : TableItem) ∈
      ([⟨2, "a", "b", 1, .enabled⟩, ⟨5, "c", "d", 2, .disabled⟩] :
        List TableItem) ∧
    (⟨2, "a", "b", 1, .enabled⟩ : TableItem).id <
      (([⟨2, "a", "b", 1, .enabled⟩, ⟨5, "c", "d", 2, .disabled⟩] :
        List TableItem).map (fun it => it.id)).foldl max 0 + 1 := by
  refine ⟨by decide, ?_⟩
  exact (C2_add_commit_fresh_id_last_page.1
    { tableData := [⟨2, "a", "b", 1, .enabled⟩, ⟨5, "c", "d", 2, .disabled⟩],
      currentPage := 1, pageSize := 10, jumpPage := 1 }
    ⟨none, "x", "y", 1, .enabled⟩).2.1 _ (by decide)

/-- C4: when no record carries the committed draft's id, edit-commit
reports the not-found error and returns with the collection and the
pagination state exactly as they were. -/
theorem C4_edit_commit_not_found_noop (s : TableState) (data : EditFormData)
    (h : ∀ it ∈ s.tableData, ¬ data.id = some it.id) :
    handleDialogConfirm .edit s data = (s, .editError) := by
  have hf : s.tableData.findIdx? (fun it => data.id = some it.id) = none := by
    rw [List.findIdx?_eq_none_iff]
    intro x hx
    simpa using h x hx
  unfold handleDialogConfirm
  rw [hf]

/-- Witness for C4 at a concrete state: editing with id 99 against a
two-record collection with ids 2 and 5 changes nothing and reports the
error. -/
theorem C4_witness :
    handleDialogConfirm .edit
      { tableData := [⟨2, "a", "b", 1, .enabled⟩, ⟨5, "c", "d", 2, .disabled⟩],
        currentPage := 1, pageSize := 10, jumpPage := 1 }
      ⟨some 99, "X", "Y", 3, .enabled⟩ =
    ({ tableData := [⟨2, "a", "b", 1, .enabled⟩, ⟨5, "c", "d", 2, .disabled⟩],
       currentPage := 1, pageSize := 10, jumpPage := 1 }, .editError) :=
  C4_edit_commit_not_found_noop _ _ (by decide)

/-- C10: when the user confirms a delete but no record carries the row's
id, the handler is a silent no-op: the state is returned unchanged and no
success message is shown (so no page clamping happens either). -/
theorem C10_delete_not_found_noop (s : TableState) (rowId : Int)
    (h : ∀ it ∈ s.tableData, ¬ it.id = rowId) :
    handleDelete s rowId = (s, false) := by
  have hf : s.tableData.findIdx? (fun it => it.id = rowId) = none := by
    rw [List.findIdx?_eq_none_iff]
    intro x hx
    simpa using h x hx
  unfold handleDelete
  rw [hf]

/-- Witness for C10 at a concrete state: confirming a delete of id 7
against a collection with ids 1 and 2 changes nothing. -/
theorem C10_witness :
    handleDelete
      { tableData := [⟨1, "a", "b", 1, .enabled⟩, ⟨2, "c", "d", 2, .enabled⟩],
        currentPage := 1, pageSize := 2, jumpPage := 1 } 7 =
    ({ tableData := [⟨1, "a", "b", 1, .enabled⟩, ⟨2, "c", "d", 2, .enabled⟩],
       currentPage := 1, pageSize := 2, jumpPage := 1 }, false) :=
  C10_delete_not_found_noop _ _ (by decide)

/-- C1: the pagination invariant (currentPage at least 1 and, when the
collection is non-empty, at most the page count, with a positive page
size) holds in the initial state and is preserved by every operation of
the host component: add-commit, edit-commit, confirmed delete, page-size
change from the option set, page change from the pager control, and
explicit jump. -/
theorem C1_pagination_invariant_preserved :
    pagInv initialTableState ∧
    ∀ (s : TableState) (op : TableOp),
      pagInv s → opValid s op → pagInv (stepTable s op) := by
  constructor
  · exact ⟨by decide, by decide, fun _ => by decide⟩
  · intro s op hinv hval
    obtain ⟨h1, hp, h2⟩ := hinv
    cases op with
    | addCommit d =>
        simp only [stepTable, addCommit_eq, pagInv, total, List.length_append,
          List.length_cons, List.length_nil]
        exact ⟨ceilPages_pos hp (by omega), hp, fun _ => le_refl _⟩
    | editCommit d =>
        simp only [stepTable]
        cases hfind :
            s.tableData.findIdx? (fun item => d.id = some item.id) with
        | none =>
            unfold handleDialogConfirm
            rw [hfind]
            exact ⟨h1, hp, h2⟩
        | some i =>
            unfold handleDialogConfirm
            rw [hfind]
            have hlen2 : (s.tableData.set i (withId d (d.id.getD 0))).length =
                s.tableData.length := List.length_set _ _ _
            refine ⟨h1, hp, fun hpos => ?_⟩
            show s.currentPage ≤
              ceilPages (s.tableData.set i (withId d (d.id.getD 0))).length
                s.pageSize
            rw [hlen2]
            refine h2 ?_
            show 0 < s.tableData.length
            rw [← hlen2]
            exact hpos
    | deleteRow rowId =>
        simp only [stepTable]
        cases hfind : s.tableData.findIdx? (fun it => it.id = rowId) with
        | none =>
            unfold handleDelete
            rw [hfind]
            exact ⟨h1, hp, h2⟩
        | some i =>
            have hilt : i < s.tableData.length :=
              (List.findIdx?_eq_some_iff_findIdx_eq.mp hfind).1
            have hlen : (s.tableData.eraseIdx i).length =
                s.tableData.length - 1 := by
              rw [List.length_eraseIdx]
              simp [hilt]
            by_cases hc :
                (paginatedData
                  { s with tableData := s.tableData.eraseIdx i }).length = 0 ∧
                1 < s.currentPage
            · rw [handleDelete_found_empty s rowId i hfind hc.1 hc.2]
              have hgt := hc.2
              refine ⟨show (1:Int) ≤ s.currentPage - 1 by omega, hp,
                fun hpos => ?_⟩
              show s.currentPage - 1 ≤
                ceilPages (s.tableData.eraseIdx i).length s.pageSize
              have hlpos : 0 < (s.tableData.eraseIdx i).length := hpos
              have hup : s.currentPage ≤
                  ceilPages s.tableData.length s.pageSize :=
                h2 (show 0 < s.tableData.length by omega)
              have hsucc : ceilPages s.tableData.length s.pageSize =
                  ((s.tableData.eraseIdx i).length : Int) / s.pageSize + 1 := by
                have : s.tableData.length =
                    (s.tableData.eraseIdx i).length + 1 := by omega
                rw [this, ceilPages_succ _ hp]
              have hdle := ediv_le_ceilPages (s.tableData.eraseIdx i).length hp
              rw [hsucc] at hup
              linarith
            · rw [handleDelete_found_keep s rowId i hfind hc]
              refine ⟨h1, hp, fun hpos => ?_⟩
              show s.currentPage ≤
                ceilPages (s.tableData.eraseIdx i).length s.pageSize
              have hpos2 : 0 < (s.tableData.eraseIdx i).length := hpos
              rcases not_and_or.mp hc with hA | hB
              · have hstart : ((s.currentPage - 1) * s.pageSize).toNat <
                    (s.tableData.eraseIdx i).length := by
                  simp only [paginatedData, List.length_take,
                    List.length_drop] at hA
                  omega
                have hmul : (s.currentPage - 1) * s.pageSize <
                    ((s.tableData.eraseIdx i).length : Int) := by
                  have h0 : 0 ≤ (s.currentPage - 1) * s.pageSize :=
                    mul_nonneg (by omega) (by omega)
                  omega
                have := le_ceilPages_of_mul_lt hp hmul
                linarith
              · have hone := ceilPages_pos hp hpos2
                have : s.currentPage = 1 := by omega
                linarith
    | sizeChange val =>
        have hv : 0 < val := by
          rcases hval with h | h | h | h <;> omega
        exact ⟨le_refl 1, hv, fun hpos => ceilPages_pos hv hpos⟩
    | currentChange val =>
        exact ⟨hval.1, hp, fun hpos => hval.2 hpos⟩
    | jump =>
        simp only [stepTable]
        by_cases hcnd : 1 ≤ s.jumpPage ∧
            s.jumpPage ≤ ceilPages (total s) s.pageSize
        · unfold handleJump
          rw [if_pos hcnd]
          exact ⟨hcnd.1, hp, fun _ => hcnd.2⟩
        · unfold handleJump
          rw [if_neg hcnd]
          exact ⟨h1, hp, h2⟩

/-- Witness for C1 at a concrete step: the invariant holds after changing
the page size to 10 from the initial state. -/
theorem C1_witness :
    pagInv (stepTable initialTableState (.sizeChange 10)) :=
  C1_pagination_invariant_preserved.2 initialTableState (.sizeChange 10)
    C1_pagination_invariant_preserved.1 (Or.inl rfl)

/-- C3: when the collection contains a record with the committed draft's
id, edit-commit replaces exactly the found slot with the draft (keeping
its id), leaves every other position, the order, the length and the
pagination state unchanged, and reports success. -/
theorem C3_edit_commit_replaces_in_place (s : TableState)
    (data : EditFormData) (tid : Int) (hid : data.id = some tid)
    (hmem : ∃ it ∈ s.tableData, it.id = tid) :
    ∃ i < s.tableData.length,
      (handleDialogConfirm .edit s data).1.tableData =
        s.tableData.set i (withId data tid) ∧
      (s.tableData[i]?.map fun it => it.id) = some tid ∧
      (handleDialogConfirm .edit s data).1.tableData[i]? =
        some (withId data tid) ∧
      (∀ j : Nat, j ≠ i →
        (handleDialogConfirm .edit s data).1.tableData[j]? =
          s.tableData[j]?) ∧
      (handleDialogConfirm .edit s data).1.tableData.length =
        s.tableData.length ∧
      (handleDialogConfirm .edit s data).1.currentPage = s.currentPage ∧
      (handleDialogConfirm .edit s data).1.pageSize = s.pageSize ∧
      (handleDialogConfirm .edit s data).1.jumpPage = s.jumpPage ∧
      (handleDialogConfirm .edit s data).2 = .editSuccess := by
  have hne :
      s.tableData.findIdx? (fun it => data.id = some it.id) ≠ none := by
    intro hnone
    rw [List.findIdx?_eq_none_iff] at hnone
    obtain ⟨it, hin, hit⟩ := hmem
    exact absurd (hnone it hin) (by simp [hid, hit])
  obtain ⟨i, hf⟩ := Option.ne_none_iff_exists'.mp hne
  have hf2 := hf
  rw [List.findIdx?_eq_some_iff_findIdx_eq] at hf2
  obtain ⟨hilt, hfi⟩ := hf2
  have hw : s.tableData.findIdx (fun it => data.id = some it.id) <
      s.tableData.length := by
    rw [hfi]
    exact hilt
  have hpx := List.findIdx_getElem (w := hw)
  simp only [hfi, decide_eq_true_eq] at hpx
  have hidkept : s.tableData[i].id = tid := by
    have h2 : some tid = some (s.tableData[i].id) := hid.symm.trans hpx
    injection h2 with h3
    exact h3.symm
  have heq : handleDialogConfirm .edit s data =
      ({ s with tableData :=
          s.tableData.set i (withId data (data.id.getD 0)) },
       .editSuccess) := by
    unfold handleDialogConfirm
    rw [hf]
  rw [hid] at heq
  simp only [Option.getD_some] at heq
  refine ⟨i, hilt, ?_, ?_, ?_, ?_, ?_, ?_, ?_, ?_, ?_⟩
  · simp [heq]
  · rw [List.getElem?_eq_getElem hilt]
    simpa using hidkept
  · rw [heq]
    exact List.getElem?_set_self (by simpa using hilt)
  · intro j hj
    rw [heq]
    exact List.getElem?_set_ne (Ne.symm hj)
  · rw [heq]
    exact List.length_set s.tableData i _
  · simp [heq]
  · simp [heq]
  · simp [heq]
  · simp [heq]

/-- Witness for C3 at a concrete state: editing the record with id 2 in a
two-record collection replaces slot 0, keeps the other record, and
reports success. -/
theorem C3_witness :
    ∃ i < ([⟨2, "a", "b", 1, .enabled⟩, ⟨5, "c", "d", 2, .disabled⟩] :
        List TableItem).length,
      (handleDialogConfirm .edit
        { tableData :=
            [⟨2, "a", "b", 1, .enabled⟩, ⟨5, "c", "d", 2, .disabled⟩],
          currentPage := 1, pageSize := 10, jumpPage := 1 }
        ⟨some 2, "X", "E", 3, .enabled⟩).1.tableData =
        ([⟨2, "a", "b", 1, .enabled⟩, ⟨5, "c", "d", 2, .disabled⟩] :
          List TableItem).set i (withId ⟨some 2, "X", "E", 3, .enabled⟩ 2) := by
  obtain ⟨i, hi, hset, _⟩ :=
    C3_edit_commit_replaces_in_place
      { tableData :=
          [⟨2, "a", "b", 1, .enabled⟩, ⟨5, "c", "d", 2, .disabled⟩],
        currentPage := 1, pageSize := 10, jumpPage := 1 }
      ⟨some 2, "X", "E", 3, .enabled⟩ 2 rfl
      ⟨⟨2, "a", "b", 1, .enabled⟩, by simp, rfl⟩
  exact ⟨i, hi, hset⟩

/-- C5: a confirmed delete that removes a record and leaves the current
page's slice of the remaining collection empty while the current page is
above 1 steps the page back by one and mirrors the new page into the
jump input. -/
theorem C5_delete_clamps_page_back (s : TableState) (rowId : Int) (i : Nat)
    (hf : s.tableData.findIdx? (fun it => it.id = rowId) = some i)
    (hempty :
      (paginatedData
        { s with tableData := s.tableData.eraseIdx i }).length = 0)
    (hcp : 1 < s.currentPage) :
    (handleDelete s rowId).1.tableData = s.tableData.eraseIdx i ∧
    (handleDelete s rowId).1.currentPage = s.currentPage - 1 ∧
    (handleDelete s rowId).1.jumpPage = s.currentPage - 1 ∧
    (handleDelete s rowId).2 = true := by
  unfold handleDelete
  rw [hf]
  simp only []
  rw [if_pos ⟨hempty, hcp⟩]
  exact ⟨rfl, rfl, rfl, rfl⟩

/-- Witness for C5 at the spec's example: collection with ids 1, 2, 3,
page size 2, current page 2; deleting id 3 moves the current page and
the jump input to 1 and leaves ids 1 and 2. -/
theorem C5_witness :
    (handleDelete
      { tableData := [⟨1, "a", "b", 1, .enabled⟩, ⟨2, "a", "b", 2, .enabled⟩,
          ⟨3, "a", "b", 3, .enabled⟩],
        currentPage := 2, pageSize := 2, jumpPage := 2 } 3).1.currentPage =
      1 ∧
    (handleDelete
      { tableData := [⟨1, "a", "b", 1, .enabled⟩, ⟨2, "a", "b", 2, .enabled⟩,
          ⟨3, "a", "b", 3, .enabled⟩],
        currentPage := 2, pageSize := 2, jumpPage := 2 } 3).1.jumpPage =
      1 ∧
    (handleDelete
      { tableData := [⟨1, "a", "b", 1, .enabled⟩, ⟨2, "a", "b", 2, .enabled⟩,
          ⟨3, "a", "b", 3, .enabled⟩],
        currentPage := 2, pageSize := 2, jumpPage := 2 } 3).1.tableData.map
        (fun it => it.id) = [1, 2] := by
  have h := C5_delete_clamps_page_back
    { tableData := [⟨1, "a", "b", 1, .enabled⟩, ⟨2, "a", "b", 2, .enabled⟩,
        ⟨3, "a", "b", 3, .enabled⟩],
      currentPage := 2, pageSize := 2, jumpPage := 2 } 3 2 rfl rfl (by decide)
  refine ⟨h.2.1.trans (by decide), h.2.2.1.trans (by decide), ?_⟩
  rw [h.1]
  decide

/-- C8: an explicit jump updates currentPage to the jump target exactly
when the target lies between 1 and the page count; any out-of-range
target, and every target when the collection is empty (page count 0),
leaves the whole state unchanged. -/
theorem C8_jump_range_check (s : TableState) :
    (1 ≤ s.jumpPage → s.jumpPage ≤ ceilPages (total s) s.pageSize →
      handleJump s = { s with currentPage := s.jumpPage }) ∧
    (¬ (1 ≤ s.jumpPage ∧ s.jumpPage ≤ ceilPages (total s) s.pageSize) →
      handleJump s = s) ∧
    (s.tableData = [] → 0 < s.pageSize → handleJump s = s) := by
  refine ⟨fun h1 h2 => ?_, fun h => ?_, fun he hp => ?_⟩
  · unfold handleJump
    rw [if_pos ⟨h1, h2⟩]
  · unfold handleJump
    rw [if_neg h]
  · have h0 : ceilPages (total s) s.pageSize = 0 := by
      unfold ceilPages total
      rw [he]
      simp only [List.length_nil, Nat.cast_zero, zero_add]
      exact Int.ediv_eq_zero_of_lt (by omega) (by omega)
    unfold handleJump
    rw [if_neg (by rw [h0]; omega)]

/-- Witness for C8 at concrete states: jumping to page 2 of a 3-record
collection with page size 2 is accepted; jumping when the collection is
empty is ignored. -/
theorem C8_witness :
    handleJump
      { tableData := [⟨1, "a", "b", 1, .enabled⟩, ⟨2, "a", "b", 2, .enabled⟩,
          ⟨3, "a", "b", 3, .enabled⟩],
        currentPage := 1, pageSize := 2, jumpPage := 2 } =
      { tableData := [⟨1, "a", "b", 1, .enabled⟩, ⟨2, "a", "b", 2, .enabled⟩,
          ⟨3, "a", "b", 3, .enabled⟩],
        currentPage := 2, pageSize := 2, jumpPage := 2 } ∧
    handleJump
      { tableData := [], currentPage := 1, pageSize := 2, jumpPage := 1 } =
      { tableData := [], currentPage := 1, pageSize := 2, jumpPage := 1 } := by
  constructor
  · exact (C8_jump_range_check _).1 (by decide) (by decide)
  · exact (C8_jump_range_check _).2.2 rfl (by decide)

/-- C6: when the visible prop goes from false to true the draft is
initialized regardless of the prior draft: in edit mode with formData
present the id is copied and each field present in formData is copied
(with a missing name defaulting to empty, a missing or absent sortOrder
to 1, a missing status to enabled, and the sortOrder of a well-formed
record, being positive, copied as is); in add mode, or when formData is
absent, the draft becomes exactly the default record with no id. -/
theorem C6_dialog_open_sets_draft :
    (∀ (mode : DialogMode) (fd : Option FormDataOpt) (s : DialogState),
      s.visible = false →
      dialogSetVisible mode fd s true =
        { visible := true, form := initForm mode fd }) ∧
    (∀ fd : FormDataOpt,
      (initForm .edit (some fd)).id = fd.id ∧
      (∀ z, fd.categoryNameZh = some z →
        (initForm .edit (some fd)).categoryNameZh = z) ∧
      (fd.categoryNameZh = none →
        (initForm .edit (some fd)).categoryNameZh = "") ∧
      (∀ z, fd.categoryNameEn = some z →
        (initForm .edit (some fd)).categoryNameEn = z) ∧
      (fd.categoryNameEn = none →
        (initForm .edit (some fd)).categoryNameEn = "") ∧
      (∀ n, fd.sortOrder = some n → 0 < n →
        (initForm .edit (some fd)).sortOrder = n) ∧
      (fd.sortOrder = none → (initForm .edit (some fd)).sortOrder = 1) ∧
      (∀ st, fd.status = some st → (initForm .edit (some fd)).status = st) ∧
      (fd.status = none → (initForm .edit (some fd)).status = .enabled)) ∧
    (∀ fd, initForm .add fd = defaultForm) ∧
    (∀ mode, initForm mode none = defaultForm) ∧
    defaultForm = { id := none, categoryNameZh := "", categoryNameEn := "",
                    sortOrder := 1, status := .enabled } := by
  refine ⟨fun mode fd s hvis => ?_, fun fd => ?_, fun fd => ?_,
    fun mode => ?_, rfl⟩
  · unfold dialogSetVisible
    rw [if_pos (by simp [hvis])]
  · refine ⟨rfl, fun z hz => ?_, fun hz => ?_, fun z hz => ?_, fun hz => ?_,
      fun n hn hpos => ?_, fun hn => ?_, fun st hst => ?_, fun hst => ?_⟩
    · show jsOrString fd.categoryNameZh "" = z
      rw [hz, jsOrString_some_empty]
    · show jsOrString fd.categoryNameZh "" = ""
      rw [hz]
      rfl
    · show jsOrString fd.categoryNameEn "" = z
      rw [hz, jsOrString_some_empty]
    · show jsOrString fd.categoryNameEn "" = ""
      rw [hz]
      rfl
    · show jsOrInt fd.sortOrder 1 = n
      rw [hn, jsOrInt_some_ne (by omega)]
    · show jsOrInt fd.sortOrder 1 = 1
      rw [hn]
      rfl
    · show jsOrStatus fd.status .enabled = st
      rw [hst]
      rfl
    · show jsOrStatus fd.status .enabled = .enabled
      rw [hst]
      rfl
  · cases fd <;> rfl
  · cases mode <;> rfl

/-- Witness for C6 at concrete inputs: opening in edit mode over a stale
draft installs the initialized draft, and a fully-present well-formed
formData has its sortOrder copied. -/
theorem C6_witness :
    dialogSetVisible .edit
        (some ⟨some 5, some "A", some "B", some 3, some .enabled⟩)
        { visible := false, form := ⟨some 9, "junk", "junk", 7, .disabled⟩ }
        true =
      { visible := true,
        form := initForm .edit
          (some ⟨some 5, some "A", some "B", some 3, some .enabled⟩) } ∧
    (initForm .edit
      (some ⟨some 5, some "A", some "B", some 3, some .enabled⟩)).sortOrder =
      3 := by
  constructor
  · exact C6_dialog_open_sets_draft.1 _ _ _ rfl
  · exact (C6_dialog_open_sets_draft.2.1 _).2.2.2.2.2.1 3 rfl
      (by decide)

/-- C7: submit runs the full rule set (nameZh required and at most 50
characters, nameEn required and at most 50 characters, sortOrder
positive, status one of the enum values, which always holds); when
validation fails, in particular whenever nameZh is empty, nothing is
emitted and the dialog stays open, and when it succeeds the draft is
emitted and the dialog closes. -/
theorem C7_submit_validation_gates_confirm (s : DialogState) :
    (validateForm s.form = true ↔
      (¬ s.form.categoryNameZh = "" ∧ s.form.categoryNameZh.length ≤ 50 ∧
       ¬ s.form.categoryNameEn = "" ∧ s.form.categoryNameEn.length ≤ 50 ∧
       0 < s.form.sortOrder)) ∧
    (validateForm s.form = true →
      handleConfirm s = (some s.form, { s with visible := false })) ∧
    (validateForm s.form = false → handleConfirm s = (none, s)) ∧
    (s.form.categoryNameZh = "" → handleConfirm s = (none, s)) := by
  have hiff : validateForm s.form = true ↔
      (¬ s.form.categoryNameZh = "" ∧ s.form.categoryNameZh.length ≤ 50 ∧
       ¬ s.form.categoryNameEn = "" ∧ s.form.categoryNameEn.length ≤ 50 ∧
       0 < s.form.sortOrder) := by
    unfold validateForm maxLength
    cases hst : s.form.status <;>
      simp only [Bool.and_eq_true, Bool.or_eq_true, Bool.not_eq_true',
        decide_eq_true_eq, decide_eq_false_iff_not, decide_eq_true_iff] <;>
      constructor <;> intro h
    · exact ⟨h.1.1.1.1.1, h.1.1.1.1.2, h.1.1.1.2, h.1.1.2, by omega⟩
    · exact ⟨⟨⟨⟨⟨h.1, h.2.1⟩, h.2.2.1⟩, h.2.2.2.1⟩, by omega⟩, by simp⟩
    · exact ⟨h.1.1.1.1.1, h.1.1.1.1.2, h.1.1.1.2, h.1.1.2, by omega⟩
    · exact ⟨⟨⟨⟨⟨h.1, h.2.1⟩, h.2.2.1⟩, h.2.2.2.1⟩, by omega⟩, by simp⟩
  refine ⟨hiff, fun hv => ?_, fun hv => ?_, fun hz => ?_⟩
  · unfold handleConfirm
    rw [if_pos hv]
  · unfold handleConfirm
    rw [if_neg (by simp [hv])]
  · have hv : validateForm s.form = false := by
      unfold validateForm
      simp [hz]
    unfold handleConfirm
    rw [if_neg (by simp [hv])]

/-- Witness for C7 at concrete drafts: an empty nameZh is rejected with
nothing emitted and the dialog still open; a valid draft is emitted and
the dialog closes. -/
theorem C7_witness :
    handleConfirm { visible := true, form := ⟨none, "", "B", 1, .enabled⟩ } =
      (none, { visible := true, form := ⟨none, "", "B", 1, .enabled⟩ }) ∧
    handleConfirm { visible := true, form := ⟨none, "A", "B", 1, .enabled⟩ } =
      (some ⟨none, "A", "B", 1, .enabled⟩,
       { visible := false, form := ⟨none, "A", "B", 1, .enabled⟩ }) := by
  constructor
  · exact (C7_submit_validation_gates_confirm _).2.2.2 rfl
  · exact (C7_submit_validation_gates_confirm _).2.1 (by decide)

/-- C9: no dialog operation writes the formData object it was handed
(initializing on open and editing or resetting the draft only write the
dialog's own cell; confirm only allocates), and the confirm payload is a
fresh object deep-equal to the draft, so writing through the emitted
address changes neither the draft nor what a subsequent reopen reads
from formData. -/
theorem C9_dialog_no_shared_mutable_state :
    (∀ (h : Heap) (formAddr : Nat) (mode : DialogMode) (fdAddr : Option Nat)
        (a : Nat), a ≠ formAddr →
      readH (initFormH h formAddr mode fdAddr) a = readH h a) ∧
    (∀ (h : Heap) (formAddr : Nat) (v : EditFormData) (a : Nat),
        a ≠ formAddr →
      readH (writeH h formAddr v) a = readH h a) ∧
    (∀ (h : Heap) (formAddr : Nat) (a : Nat), a < h.length →
      readH (handleConfirmH h formAddr).1 a = readH h a) ∧
    (∀ (h : Heap) (formAddr : Nat) (f : EditFormData),
      readH h formAddr = some f → validateForm f = true →
      handleConfirmH h formAddr = (h ++ [f], some h.length) ∧
      h.length ≠ formAddr ∧
      readH (h ++ [f]) h.length = some f ∧
      readH (h ++ [f]) formAddr = some f ∧
      (∀ v, readH (writeH (h ++ [f]) h.length v) formAddr = some f) ∧
      (∀ (v : EditFormData) (mode : DialogMode) (fdAddr : Nat),
        fdAddr < h.length →
        readH (initFormH (writeH (h ++ [f]) h.length v) formAddr mode
            (some fdAddr)) formAddr =
          readH (initFormH (h ++ [f]) formAddr mode (some fdAddr))
            formAddr)) := by
  have hwrite : ∀ (h : Heap) (formAddr : Nat) (v : EditFormData) (a : Nat),
      a ≠ formAddr → readH (writeH h formAddr v) a = readH h a := by
    intro h formAddr v a ha
    unfold readH writeH
    exact List.getElem?_set_ne (Ne.symm ha)
  refine ⟨fun h formAddr mode fdAddr a ha => hwrite _ _ _ _ ha, hwrite,
    fun h formAddr a ha => ?_, fun h formAddr f hr hv => ?_⟩
  · cases hr : readH h formAddr with
    | none => rw [handleConfirmH_none h formAddr hr]
    | some f =>
        by_cases hval : validateForm f = true
        · rw [handleConfirmH_valid h formAddr f hr hval]
          unfold readH
          rw [List.getElem?_append]
          simp [ha]
        · rw [handleConfirmH_invalid h formAddr f hr
            (Bool.not_eq_true _ ▸ hval)]
  · have hlt : formAddr < h.length := by
      by_contra hge
      unfold readH at hr
      rw [List.getElem?_eq_none (by omega)] at hr
      exact Option.noConfusion hr
    have happ : readH (h ++ [f]) formAddr = some f := by
      unfold readH at hr ⊢
      rw [List.getElem?_append, if_pos hlt]
      exact hr
    have hfresh : readH (h ++ [f]) h.length = some f := by
      unfold readH
      simp
    refine ⟨handleConfirmH_valid h formAddr f hr hv, by omega, hfresh, happ,
      fun v => ?_, fun v mode fdAddr hfd => ?_⟩
    · rw [hwrite _ _ _ _ (by omega)]
      exact happ
    · have hread : readH (writeH (h ++ [f]) h.length v) fdAddr =
          readH (h ++ [f]) fdAddr := hwrite _ _ _ _ (by omega)
      have hbind1 : ((some fdAddr).bind
            (readH (writeH (h ++ [f]) h.length v))) =
          readH (h ++ [f]) fdAddr := hread
      have hbind2 : ((some fdAddr).bind (readH (h ++ [f]))) =
          readH (h ++ [f]) fdAddr := rfl
      unfold initFormH
      rw [hbind1, hbind2]
      unfold readH writeH
      rw [List.getElem?_set_self
          (by rw [List.length_set, List.length_append]; omega),
        List.getElem?_set_self (by rw [List.length_append]; omega)]

/-- Witness for C9 at a concrete heap holding the draft at address 0 and
the formData object at address 1: confirm allocates the copy at the fresh
address 2, and the open-time initialization leaves the formData cell
untouched. -/
theorem C9_witness :
    handleConfirmH
      [⟨none, "A", "B", 1, .enabled⟩, ⟨some 7, "C", "D", 2, .disabled⟩] 0 =
      ([⟨none, "A", "B", 1, .enabled⟩, ⟨some 7, "C", "D", 2, .disabled⟩,
        ⟨none, "A", "B", 1, .enabled⟩], some 2) ∧
    readH (initFormH
      [⟨none, "A", "B", 1, .enabled⟩, ⟨some 7, "C", "D", 2, .disabled⟩]
      0 .edit (some 1)) 1 =
      readH
        [⟨none, "A", "B", 1, .enabled⟩, ⟨some 7, "C", "D", 2, .disabled⟩]
        1 := by
  constructor
  · exact (C9_dialog_no_shared_mutable_state.2.2.2
      [⟨none, "A", "B", 1, .enabled⟩, ⟨some 7, "C", "D", 2, .disabled⟩]
      0 ⟨none, "A", "B", 1, .enabled⟩ rfl (by decide)).1
  · exact C9_dialog_no_shared_mutable_state.1 _ 0 .edit (some 1) 1
      (by decide)

end ClaimTheorems
